import Mathlib

/-!
Verification of the core logic of the `sow-po-manager` document pipeline.

The development shallowly embeds the pure decision logic of the repository:

* `src/lambdas/chunk_and_embed/handler.py` — sliding-window chunking
  (`chunk_text`), the retry/backoff executor
  (`generate_embedding_with_backoff`), and the manifest-gated idempotent
  stage run (`lambda_handler`).
* `src/lambdas/extract_structured_data/schema.py` — the strict schema
  validator (`validate_against_schema`) and the `SOW_SCHEMA` table.
* `src/lambdas/validate_data/validation_rules.py` — the table-driven
  business-rule engine (`VALIDATION_RULES`, `validate_structured_data`).

Python strings are modelled as `List Char`, Python numbers as `Rat`,
fallible Python code as `Except`; external effects (S3 reads/writes, SQS
sends, Bedrock calls, wall-clock date) are modelled as explicit inputs and
event traces.
-/

namespace SowPo

/-! ## Chunking (`chunk_and_embed/handler.py`, `chunk_text`)

`chunk_text` slides a window of `chunk_size` characters over the text,
advancing by `chunk_size - overlap` each step (Python:
`start = max(0, end - overlap)`), keeps a window only when
`chunk.strip()` is truthy, and stops when the window reaches the end of
the text.  `overlap >= chunk_size` raises `ValueError` before any
chunking; we model the raise as `Except.error`. -/

/-- Python `str.strip()` whitespace set, restricted to the ASCII
whitespace characters (space, tab, newline, carriage return, vertical
tab, form feed). -/
def pyIsSpace (c : Char) : Bool :=
  c = ' ' || c = '\t' || c = '\n' || c = '\r' || c = '\x0b' || c = '\x0c'

/-- Truthiness of Python `chunk.strip()`: the string contains at least one
non-whitespace character. -/
def pyStripNonEmpty (s : List Char) : Bool :=
  s.any (fun c => !pyIsSpace c)

/-- The slice `text[a:b]` of a Python string (for `a ≤ b`). -/
def seg (text : List Char) (a b : Nat) : List Char :=
  (text.drop a).take (b - a)

/-- The `while start < n` loop of `chunk_text`.  Each iteration takes the
window `text[start:end]` with `end = min(start + chunk_size, n)`, appends
it when `chunk.strip()` is truthy, breaks when `end == n`, and otherwise
continues from `end - overlap`.  Termination needs `overlap < chunk_size`,
which the caller has validated. -/
def chunkLoop (text : List Char) (chunkSize overlap : Nat)
    (hov : overlap < chunkSize) (start : Nat) : List (List Char) :=
  if h : start < text.length then
    let e := min (start + chunkSize) text.length
    let chunk := seg text start e
    if he : e = text.length then
      if pyStripNonEmpty chunk then [chunk] else []
    else
      if pyStripNonEmpty chunk then
        chunk :: chunkLoop text chunkSize overlap hov (e - overlap)
      else
        chunkLoop text chunkSize overlap hov (e - overlap)
  else
    []
termination_by text.length - start
decreasing_by
  all_goals
    simp only [e] at he ⊢
    omega

/-- Embeds `chunk_text(text, chunk_size, overlap)`: raises `ValueError`
(modelled as `Except.error`) when `overlap >= chunk_size`, else runs the
sliding-window loop from `start = 0`. -/
def chunk_text (text : List Char) (chunkSize overlap : Nat) :
    Except String (List (List Char)) :=
  if h : chunkSize ≤ overlap then
    .error "CHUNK_OVERLAP must be < CHUNK_SIZE"
  else
    .ok (chunkLoop text chunkSize overlap (by omega) 0)

instance {ε α : Type _} [DecidableEq ε] [DecidableEq α] :
    DecidableEq (Except ε α) := fun x y =>
  match x, y with
  | .ok a, .ok b =>
      if h : a = b then .isTrue (by rw [h])
      else .isFalse (by intro hc; cases hc; exact h rfl)
  | .error a, .error b =>
      if h : a = b then .isTrue (by rw [h])
      else .isFalse (by intro hc; cases hc; exact h rfl)
  | .ok _, .error _ => .isFalse (by intro hc; cases hc)
  | .error _, .ok _ => .isFalse (by intro hc; cases hc)

/-! ## Retry/backoff executor
(`chunk_and_embed/handler.py`, `generate_embedding_with_backoff`)

The function loops `for attempt in range(max_attempts)`.  Each attempt
either succeeds (returning `response_body.get('embedding')`, which may be
`None` when the key is absent), raises a `botocore ClientError` carrying
an HTTP status code, or raises some other `Exception`.  We model the
environment as a trace assigning each attempt index its outcome, and the
executor as a pure function of the trace returning the result, the list
of sleeps performed, and the number of attempts consumed.  The jitter of
`random.random()` is modelled as an explicit function `jd` of the attempt
index. -/

/-- Outcome of one `bedrock.invoke_model` attempt, as seen by the
`try/except` blocks of `generate_embedding_with_backoff`. -/
inductive CallResult where
  /-- The call returned; `emb` is `response_body.get('embedding')`
  (`none` when the key is absent). -/
  | success (emb : Option (List Int))
  /-- A `ClientError` whose `ResponseMetadata` HTTP status is `status`. -/
  | clientError (status : Nat)
  /-- Any other `Exception`. -/
  | otherError
deriving DecidableEq

/-- The status codes retried by the `ClientError` branch:
`error_code in (429, 500, 502, 503, 504)`. -/
def RETRYABLE_STATUS : List Nat := [429, 500, 502, 503, 504]

/-- The deterministic part of the backoff sleep after failed attempt `i`
(0-indexed): `min(8, 2 ** attempt)` seconds. -/
def backoffSleep (i : Nat) : Nat := min 8 (2 ^ i)

/-- Result of a run of `generate_embedding_with_backoff`:
the returned value (`none` models returning Python `None`), the sleeps
performed (in seconds, including jitter), and the number of call attempts
made.  The function never raises: every path of the source returns. -/
structure BackoffRun where
  result : Option (List Int)
  sleeps : List Rat
  attempts : Nat
deriving DecidableEq

/-- The `for attempt in range(max_attempts)` loop of
`generate_embedding_with_backoff`, starting at attempt index `a`.
`trace i` is the outcome of attempt `i`; `jd i` is the value of
`random.random()` drawn after attempt `i`. -/
def backoffLoop (trace : Nat → CallResult) (jd : Nat → Rat)
    (maxAttempts : Nat) (a : Nat) : BackoffRun :=
  if h : a < maxAttempts then
    match trace a with
    | .success emb => ⟨emb, [], 1⟩
    | .clientError status =>
        if status ∈ RETRYABLE_STATUS ∧ a < maxAttempts - 1 then
          let rest := backoffLoop trace jd maxAttempts (a + 1)
          ⟨rest.result, ((backoffSleep a : Rat) + jd a) :: rest.sleeps,
            rest.attempts + 1⟩
        else
          ⟨none, [], 1⟩
    | .otherError =>
        if a < maxAttempts - 1 then
          let rest := backoffLoop trace jd maxAttempts (a + 1)
          ⟨rest.result, ((backoffSleep a : Rat) + jd a) :: rest.sleeps,
            rest.attempts + 1⟩
        else
          ⟨none, [], 1⟩
  else
    ⟨none, [], 0⟩
termination_by maxAttempts - a

/-- Embeds `generate_embedding_with_backoff(text, max_attempts=5)`, as a function
of the per-attempt outcome trace. -/
def generate_embedding_with_backoff (trace : Nat → CallResult)
    (jd : Nat → Rat) (maxAttempts : Nat := 5) : BackoffRun :=
  backoffLoop trace jd maxAttempts 0

/-- Classification used by the amended C7 statement: the outcomes after
which the source continues the retry loop (a ClientError with retryable
status, or any non-ClientError exception). -/
def retryableFail : CallResult → Bool
  | .clientError s => RETRYABLE_STATUS.contains s
  | .otherError => true
  | .success _ => false


/-! ## Manifest-gated stage run (`chunk_and_embed/handler.py`,
`lambda_handler`, per-record body)

S3/SQS effects are modelled as inputs (the stored manifest, the document
text) and an ordered event trace (artifact writes, the manifest write,
the forwarded message).  A chunk's embedding attempt is abstracted by a
boolean outcome per chunk index: `true` iff
`generate_embedding_with_backoff` returned a truthy embedding, in which
case the handler persists the chunk artifact.  The count of external
derivation (Bedrock) calls made by the stage is returned explicitly. -/

/-- The whitelisted envelope forwarded to the next queue. -/
structure Envelope where
  document_id : String
  text_s3_key : String
  embeddings_s3_pfx : String
  chunks_created : Int
  embeddings_persisted : Int
deriving DecidableEq

/-- What the manifest lookup at `embeddings_prefix + "manifest.json"`
found: either no manifest (`NoSuchKey`), or a manifest whose
`chunks`/`embedded` fields read `int(manifest_data.get('chunks', 0))`
and `int(manifest_data.get('embedded', 0))`. -/
inductive ManifestState where
  | absent
  | present (chunks embedded : Int)
deriving DecidableEq

/-- The completion test of the idempotency gate:
`embedded_count >= chunks_total > 0` (Python chained comparison). -/
def manifestComplete (chunks embedded : Int) : Bool :=
  decide (embedded ≥ chunks) && decide (chunks > 0)

/-- Observable S3/SQS effects of one stage run, in program order. -/
inductive StageEvent where
  /-- An `s3.put_object` of the chunk artifact at index `idx`. -/
  | putChunk (idx : Nat)
  /-- The `_put_manifest` write of the completion manifest. -/
  | putManifest (chunks embedded : Int)
  | sendMessage (env : Envelope)
deriving DecidableEq

/-- Result of one per-record stage run. -/
structure StageRun where
  /-- S3 writes and SQS sends, in order. -/
  events : List StageEvent
  /-- The envelope sent to `NEXT_QUEUE_URL`, if the run completed. -/
  forwarded : Option Envelope
  /-- Number of external derivation (embedding) calls performed. -/
  embedCalls : Nat
  /-- Set to `true` iff the run raised (caught by the outer handler and
  re-raised for SQS retry). -/
  raised : Bool
deriving DecidableEq

/-- The `for idx, chunk in enumerate(chunks)` loop: one embedding call
per index; on a truthy embedding the artifact is written and `persisted`
increments; on a falsy result the loop continues.  Returns the artifact
writes in order and the persisted count, given the list of chunk
indices. -/
def embedChunks (outcomes : Nat → Bool) : List Nat → List StageEvent × Nat
  | [] => ([], 0)
  | idx :: rest =>
      let tail := embedChunks outcomes rest
      if outcomes idx then (.putChunk idx :: tail.1, tail.2 + 1)
      else tail

/-- One per-record run of the chunk/embed stage body
(handler lines 149–280), as a function of: the stored manifest state, the
message fields, the downloaded text, the chunking configuration, the
per-chunk embedding outcomes, and the configured minimum success ratio.

* Complete manifest (`embedded >= chunks > 0`): skip all work, forward an
  envelope built from the stored counts, zero embedding calls.
* Otherwise: chunk the text (a `ValueError` from `chunk_text` propagates
  to the outer handler: `raised`), attempt every chunk, compute
  `success_ratio = persisted / max(1, len(chunks))`; below the minimum
  raise `RuntimeError` without writing a manifest; otherwise write the
  manifest last and forward the whitelisted envelope. -/
def stageRunOnce (m : ManifestState) (docId textKey pfx : String)
    (text : List Char) (chunkSize overlap : Nat) (outcomes : Nat → Bool)
    (minRatio : Rat) : StageRun :=
  match m with
  | .present chunks embedded =>
      if manifestComplete chunks embedded then
        let env : Envelope :=
          ⟨docId, textKey, pfx, chunks, embedded⟩
        ⟨[.sendMessage env], some env, 0, false⟩
      else
        stageRunProcess docId textKey pfx text chunkSize overlap outcomes
          minRatio
  | .absent =>
      stageRunProcess docId textKey pfx text chunkSize overlap outcomes
        minRatio
where
  /-- The non-skip path: download, chunk, embed, gate, manifest, forward. -/
  stageRunProcess (docId textKey pfx : String) (text : List Char)
      (chunkSize overlap : Nat) (outcomes : Nat → Bool) (minRatio : Rat) :
      StageRun :=
    match chunk_text text chunkSize overlap with
    | .error _ => ⟨[], none, 0, true⟩
    | .ok chunks =>
        let total := chunks.length
        let ec := embedChunks outcomes (List.range total)
        let ratio : Rat := (ec.2 : Rat) / ((max 1 total : Nat) : Rat)
        if ratio < minRatio then
          ⟨ec.1, none, total, true⟩
        else
          let env : Envelope :=
            ⟨docId, textKey, pfx, (total : Int), (ec.2 : Int)⟩
          ⟨ec.1 ++ [.putManifest (total : Int) (ec.2 : Int),
              .sendMessage env],
            some env, total, false⟩

/-- Default value of the `EMBED_SUCCESS_MIN_RATIO` environment setting
(environment default `'0.95'`). -/
def EMBED_SUCCESS_MIN : Rat := 95 / 100

/-! ## Strict schema validator
(`extract_structured_data/schema.py`, `validate_against_schema`)

JSON values are modelled by `JVal`; a Python dict is an association list
in insertion order.  `validate_against_schema` is recursive only through
the `items` sub-schema of an array field, and the repository instantiates
it solely at `SOW_SCHEMA`, whose nesting depth is two (the `day_rates`
item schema has no array fields); the embedding therefore unrolls the
recursion to that depth: `validateObjSchema` validates an object against
a schema whose fields carry no `items` (the `day_rates` item schema), and
`validate_against_schema` validates against a top-level schema whose
fields may carry an `items` object schema.  The check order (type,
required, extra fields, then the per-field loop over `data.items()`)
follows the source exactly; the first failure raises
`SchemaValidationError(code, message, field)`, modelled as
`Except.error`. -/

/-- A JSON value held in the untrusted payload. -/
inductive JVal where
  | str (s : String)
  | num (q : Rat)
  | bool (b : Bool)
  | null
  | arr (xs : List JVal)
  | obj (fields : List (String × JVal))

/-- Tests `value is None`. -/
def JVal.isNull : JVal → Bool
  | .null => true
  | _ => false

/-- The `"type"` entry of a field schema: either a single type name or a
list of type names (e.g. `["string", "null"]`). -/
inductive SType where
  | single (t : String)
  | multi (ts : List String)
deriving DecidableEq

/-- The only `"pattern"` occurring in the repository's schemas:
`"^\d{4}-\d{2}-\d{2}$"`, matched with `re.match`. -/
inductive Pat where
  | dateYMD
deriving DecidableEq

/-- Tests whether `re.match("^\d{4}-\d{2}-\d{2}$", s)` is truthy: the string is exactly
four digits, a dash, two digits, a dash, two digits. -/
def patMatches : Pat → String → Bool
  | .dateYMD, s =>
      match s.toList with
      | [y1, y2, y3, y4, c1, m1, m2, c2, d1, d2] =>
          y1.isDigit && y2.isDigit && y3.isDigit && y4.isDigit &&
          (c1 = '-') && m1.isDigit && m2.isDigit &&
          (c2 = '-') && d1.isDigit && d2.isDigit
      | _ => false

/-- The per-field constraint entries a field schema may declare
(`minLength`, `maxLength`, `pattern`, `enum`, `minimum`, `maximum`).
`enum` lists string or `None` members, as in `ir35_status`. -/
structure FieldConstraints where
  type_ : Option SType
  minLength : Option Nat := none
  maxLength : Option Nat := none
  pattern : Option Pat := none
  enum : Option (List (Option String)) := none
  minimum : Option Rat := none
  maximum : Option Rat := none
deriving DecidableEq

/-- An object schema whose fields carry no `items` entry (the
`day_rates` item schema). -/
structure ObjSchema where
  required : List String
  /-- Whether `additionalProperties: False` is present. -/
  noAdditional : Bool
  properties : List (String × FieldConstraints)
deriving DecidableEq

/-- A top-level field schema: constraints plus an optional `items`
object schema (only `day_rates` has one). -/
structure FieldSchema where
  c : FieldConstraints
  items : Option ObjSchema := none
deriving DecidableEq

/-- A top-level object schema (`SOW_SCHEMA`). -/
structure TopSchema where
  required : List String
  noAdditional : Bool
  properties : List (String × FieldSchema)
deriving DecidableEq

/-- A raised `SchemaValidationError`: its stable `code` and `field`. The
human-readable message is not modelled. -/
structure SchemaValidationError where
  code : String
  field : Option String
deriving DecidableEq

/-- Embeds `isinstance(value, python_types[expected])` for
`python_types = {"string": str, "number": (int, float), "boolean": bool,
"array": list, "object": dict}`.  A Python `bool` is an instance of
`int`, so a boolean value also satisfies `"number"`. -/
def pyIsInstance (v : JVal) (t : String) : Bool :=
  match v, t with
  | .str _, "string" => true
  | .num _, "number" => true
  | .bool _, "number" => true
  | .bool _, "boolean" => true
  | .arr _, "array" => true
  | .obj _, "object" => true
  | _, _ => false

/-- The expected (non-null) type names of a field schema:
`[field_type]` for a single name, `[t for t in field_type if t != "null"]`
for a list. -/
def expectedTypes : SType → List String
  | .single t => [t]
  | .multi ts => ts.filter (· ≠ "null")

/-- The type-checking section of the per-field loop: `valid_type` is set
iff some expected type name is a known `python_types` key that `value`
is an instance of. -/
def typeCheckOk (st : SType) (v : JVal) : Bool :=
  (expectedTypes st).any (fun t => pyIsInstance v t)

/-- Truthiness of `value.strip()` for a Python string value. -/
def pyStrTruthyStripped (s : String) : Bool :=
  pyStripNonEmpty s.toList

/-- Embeds `data[field]` on the association list (first match, as in a Python
dict with unique keys). -/
def jlookup (fields : List (String × JVal)) (k : String) : Option JVal :=
  match fields with
  | [] => none
  | (k', v) :: rest => if k' = k then some v else jlookup rest k

/-- The `required` loop (schema.py lines 94–107): a missing required
field raises `VAL_SCHEMA_REQUIRED`; a required field that is `None` or a
blank string raises `VAL_SCHEMA_EMPTY`. -/
def requiredCheck (required : List String)
    (fields : List (String × JVal)) : Except SchemaValidationError Unit :=
  match required with
  | [] => .ok ()
  | r :: rest =>
      match jlookup fields r with
      | none => .error ⟨"VAL_SCHEMA_REQUIRED", some r⟩
      | some v =>
          let blank :=
            match v with
            | .null => true
            | .str s => !pyStrTruthyStripped s
            | _ => false
          if blank then .error ⟨"VAL_SCHEMA_EMPTY", some r⟩
          else requiredCheck rest fields

/-- The extra-field check (schema.py lines 110–118): with
`additionalProperties: False`, any data key outside the declared
properties raises `VAL_SCHEMA_EXTRA`.  CPython iterates the set
`extra_fields` in unspecified order; the modelled `field` is the first
undeclared key in insertion order. -/
def extraCheck (noAdditional : Bool) (allowed : List String)
    (fields : List (String × JVal)) : Except SchemaValidationError Unit :=
  if noAdditional then
    match fields.filter (fun kv => !allowed.contains kv.1) with
    | [] => .ok ()
    | (k, _) :: _ => .error ⟨"VAL_SCHEMA_EXTRA", some k⟩
  else .ok ()

/-- The null-handling branch of the per-field loop (schema.py lines
128–142): null is accepted when the declared type is a list containing
`"null"`, when the declared type is the single name `"null"`, or when
the field is not required; otherwise `VAL_SCHEMA_NULL`. -/
def nullBranch (required : List String) (k : String)
    (fc : FieldConstraints) : Except SchemaValidationError Unit :=
  match fc.type_ with
  | some (.multi ts) =>
      if ts.contains "null" then .ok ()
      else if !required.contains k then .ok ()
      else .error ⟨"VAL_SCHEMA_NULL", some k⟩
  | some (.single t) =>
      if t = "null" then .ok ()
      else if !required.contains k then .ok ()
      else .error ⟨"VAL_SCHEMA_NULL", some k⟩
  | none =>
      if !required.contains k then .ok ()
      else .error ⟨"VAL_SCHEMA_NULL", some k⟩

/-- The string-validations section (schema.py lines 170–196):
`minLength`, `maxLength`, `pattern`, `enum`, applied only to string
values. -/
def stringChecks (k : String) (fc : FieldConstraints) (v : JVal) :
    Except SchemaValidationError Unit :=
  match v with
  | .str s =>
      if hmin : fc.minLength.isSome then
        if s.length < fc.minLength.get hmin then
          .error ⟨"VAL_SCHEMA_LENGTH", some k⟩
        else stringChecks2 k fc s
      else stringChecks2 k fc s
  | _ => .ok ()
where
  /-- maxLength, pattern, enum. -/
  stringChecks2 (k : String) (fc : FieldConstraints) (s : String) :
      Except SchemaValidationError Unit :=
    if hmax : fc.maxLength.isSome then
      if s.length > fc.maxLength.get hmax then
        .error ⟨"VAL_SCHEMA_LENGTH", some k⟩
      else stringChecks3 k fc s
    else stringChecks3 k fc s
  /-- pattern, enum. -/
  stringChecks3 (k : String) (fc : FieldConstraints) (s : String) :
      Except SchemaValidationError Unit :=
    match fc.pattern with
    | some p =>
        if !patMatches p s then .error ⟨"VAL_SCHEMA_FORMAT", some k⟩
        else stringChecks4 k fc s
    | none => stringChecks4 k fc s
  /-- enum. -/
  stringChecks4 (k : String) (fc : FieldConstraints) (s : String) :
      Except SchemaValidationError Unit :=
    match fc.enum with
    | some es =>
        if !es.contains (some s) then .error ⟨"VAL_SCHEMA_ENUM", some k⟩
        else .ok ()
    | none => .ok ()

/-- The number-validations section (schema.py lines 199–211):
`minimum`/`maximum`, applied to numeric values;
`isinstance(value, (int, float))` also admits Python booleans, which
compare as 0/1. -/
def numberChecks (k : String) (fc : FieldConstraints) (v : JVal) :
    Except SchemaValidationError Unit :=
  match (match v with
         | .num q => some q
         | .bool b => some (if b then (1 : Rat) else 0)
         | _ => none) with
  | some q =>
      if hmin : fc.minimum.isSome then
        if q < fc.minimum.get hmin then
          .error ⟨"VAL_SCHEMA_RANGE", some k⟩
        else numberChecksMax k fc q
      else numberChecksMax k fc q
  | none => .ok ()
where
  /-- maximum. -/
  numberChecksMax (k : String) (fc : FieldConstraints) (q : Rat) :
      Except SchemaValidationError Unit :=
    if hmax : fc.maximum.isSome then
      if q > fc.maximum.get hmax then
        .error ⟨"VAL_SCHEMA_RANGE", some k⟩
      else .ok ()
    else .ok ()

/-- The per-field body of the property loop (schema.py lines 126–211),
excluding the array-items section: null handling, type checking, string
validations, number validations, in source order (the first failure
raises).  `required` is the enclosing schema's required list (consulted
by the null branch). -/
def validateFieldBase (required : List String) (k : String)
    (fc : FieldConstraints) (v : JVal) :
    Except SchemaValidationError Unit :=
  if v.isNull then nullBranch required k fc
  else
    match (match fc.type_ with
           | some st =>
               if !typeCheckOk st v then
                 Except.error (⟨"VAL_SCHEMA_TYPE", some k⟩ :
                   SchemaValidationError)
               else .ok ()
           | none => .ok ()) with
    | .error e => .error e
    | .ok () =>
        match stringChecks k fc v with
        | .error e => .error e
        | .ok () => numberChecks k fc v

/-- Exception propagation between two validation steps: the first
raised `SchemaValidationError` aborts. -/
def eseq (x y : Except SchemaValidationError Unit) :
    Except SchemaValidationError Unit :=
  match x with
  | .error e => .error e
  | .ok () => y

/-- The property loop of `validate_against_schema` for a leaf object
schema (no `items` on any field): iterate `data.items()` in insertion
order, skipping keys not in `properties`. -/
def validateObjFields (s : ObjSchema) :
    List (String × JVal) → Except SchemaValidationError Unit
  | [] => .ok ()
  | (k, v) :: rest =>
      match jlookup' s.properties k with
      | none => validateObjFields s rest
      | some fc =>
          eseq (validateFieldBase s.required k fc v)
            (validateObjFields s rest)
where
  /-- The `properties[field]` lookup. -/
  jlookup' (props : List (String × FieldConstraints)) (k : String) :
      Option FieldConstraints :=
    match props with
    | [] => none
    | (k', fc) :: rest => if k' = k then some fc else jlookup' rest k

/-- Embeds `validate_against_schema(data, schema)` for a leaf object schema
(the recursive call on `day_rates` items): type check, required loop,
extra-field check, property loop. -/
def validateObjSchema (s : ObjSchema) (d : JVal) :
    Except SchemaValidationError Unit :=
  match d with
  | .obj fields =>
      eseq (requiredCheck s.required fields)
        (eseq (extraCheck s.noAdditional (s.properties.map (·.1)) fields)
          (validateObjFields s fields))
  | _ => .error ⟨"VAL_SCHEMA_TYPE", none⟩

/-- The array-items section (schema.py lines 214–223): validate each
item against the `items` schema, prefixing the violation field path with
`field[i]` and preserving the error code. -/
def validateItems (k : String) (s : ObjSchema) :
    List JVal → Nat → Except SchemaValidationError Unit
  | [], _ => .ok ()
  | x :: rest, i =>
      match validateObjSchema s x with
      | .ok () => validateItems k s rest (i + 1)
      | .error e =>
          .error ⟨e.code,
            some (match e.field with
              | some f => s!"{k}[{i}].{f}"
              | none => s!"{k}[{i}]")⟩

/-- The property loop for the top-level schema: the per-field base checks
followed, for array values of fields declaring `items`, by item
validation. -/
def validateTopFields (s : TopSchema) :
    List (String × JVal) → Except SchemaValidationError Unit
  | [] => .ok ()
  | (k, v) :: rest =>
      match flookup s.properties k with
      | none => validateTopFields s rest
      | some fs =>
          eseq (validateFieldBase s.required k fs.c v)
            (eseq (match v, fs.items with
                   | .arr xs, some is => validateItems k is xs 0
                   | _, _ => .ok ())
              (validateTopFields s rest))
where
  /-- The `properties[field]` lookup at the top level. -/
  flookup (props : List (String × FieldSchema)) (k : String) :
      Option FieldSchema :=
    match props with
    | [] => none
    | (k', fs) :: rest => if k' = k then some fs else flookup rest k

/-- Embeds `validate_against_schema(data, schema)` at the top level. -/
def validate_against_schema (s : TopSchema) (d : JVal) :
    Except SchemaValidationError Unit :=
  match d with
  | .obj fields =>
      eseq (requiredCheck s.required fields)
        (eseq (extraCheck s.noAdditional (s.properties.map (·.1)) fields)
          (validateTopFields s fields))
  | _ => .error ⟨"VAL_SCHEMA_TYPE", none⟩

/-- The `day_rates` item schema of `SOW_SCHEMA`. -/
def DAY_RATE_ITEM_SCHEMA : ObjSchema where
  required := ["role", "rate", "currency"]
  noAdditional := true
  properties :=
    [("role", { type_ := some (.single "string"), minLength := some 1,
                maxLength := some 100 }),
     ("rate", { type_ := some (.single "number"), minimum := some 0,
                maximum := some 5000 }),
     ("currency", { type_ := some (.single "string"),
                    enum := some [some "GBP", some "USD", some "EUR"] })]

/-- The `SOW_SCHEMA` table (schema.py lines 11–70). -/
def SOW_SCHEMA : TopSchema where
  required := ["client_name"]
  noAdditional := true
  properties :=
    [("client_name",
      { c := { type_ := some (.single "string"),
               minLength := some 1, maxLength := some 200 } }),
     ("contract_value",
      { c := { type_ := some (.multi ["number", "null"]),
               minimum := some 0, maximum := some 100000000 } }),
     ("start_date",
      { c := { type_ := some (.multi ["string", "null"]),
               pattern := some .dateYMD } }),
     ("end_date",
      { c := { type_ := some (.multi ["string", "null"]),
               pattern := some .dateYMD } }),
     ("po_number",
      { c := { type_ := some (.multi ["string", "null"]),
               maxLength := some 100 } }),
     ("ir35_status",
      { c := { type_ := some (.multi ["string", "null"]),
               enum := some [some "Inside", some "Outside",
                             some "Not Specified", none] } }),
     ("day_rates",
      { c := { type_ := some (.single "array") },
        items := some DAY_RATE_ITEM_SCHEMA }),
     ("signatures_present",
      { c := { type_ := some (.single "boolean") } })]

/-! ## Business rule engine
(`validate_data/validation_rules.py`)

The structured payload the engine receives is modelled with one
`PyField` per schema field: each key may be absent from the dict,
present with value `None`, or present with a value of the field's
declared type (the payload the engine sees has passed the strict schema
validator upstream).  `date.today()` is an explicit parameter.  A rule
returns `Except PyErr (Option Violation)`: `.error` models an uncaught
Python exception (e.g. `TypeError` from `enumerate(None)` or from
comparing `None` with an int), `.ok none` a skip, `.ok (some v)` a
violation.  Violation messages are not modelled (codes, field paths and
severities are). -/

/-- A dict entry: absent key, `None`, or a value. -/
inductive PyField (α : Type) where
  | absent
  | null
  | val (a : α)
deriving DecidableEq

/-- Embeds `data.get(k)` (default `None`): absent and `None` both map to
`none`. -/
def PyField.get : PyField α → Option α
  | .absent => none
  | .null => none
  | .val a => some a

/-- One element of `day_rates`. -/
structure DayRateEntry where
  role : PyField String
  rate : PyField Rat
  currency : PyField String
deriving DecidableEq

/-- The structured payload fields the rules inspect. -/
structure SowData where
  client_name : PyField String
  start_date : PyField String
  end_date : PyField String
  contract_value : PyField Rat
  day_rates : PyField (List DayRateEntry)
deriving DecidableEq

/-- An uncaught Python exception inside a rule. -/
inductive PyErr where
  | typeError
deriving DecidableEq

/-- The `Severity` enum (validation_rules.py lines 11–14). -/
inductive Severity where
  | error
  | warning
deriving DecidableEq

/-- A `ValidationViolation` (code, field path, severity); the
human-readable message is not modelled. -/
structure Violation where
  code : String
  field : String
  severity : Severity
deriving DecidableEq

/-- A proleptic Gregorian calendar date, as `datetime.date`. -/
structure PyDate where
  year : Nat
  month : Nat
  day : Nat
deriving DecidableEq

/-- Leap year test of the Gregorian calendar. -/
def isLeapYear (y : Nat) : Bool :=
  y % 4 = 0 && (y % 100 ≠ 0 || y % 400 = 0)

/-- Days in a month of the Gregorian calendar. -/
def daysInMonth (y m : Nat) : Nat :=
  if m = 2 then (if isLeapYear y then 29 else 28)
  else if m = 4 || m = 6 || m = 9 || m = 11 then 30
  else 31

/-- Days in the months strictly before `m` of year `y`. -/
def daysBeforeMonth (y m : Nat) : Nat :=
  (List.range (m - 1)).foldl (fun acc i => acc + daysInMonth y (i + 1)) 0

/-- Embeds `date.toordinal()`: day number counting from 0001-01-01 = 1. -/
def PyDate.toordinal (d : PyDate) : Nat :=
  365 * (d.year - 1) + (d.year - 1) / 4 - (d.year - 1) / 100 +
    (d.year - 1) / 400 + daysBeforeMonth d.year d.month + d.day

/-- Comparison `d1 < d2` on dates (equivalent to ordinal comparison). -/
def PyDate.lt (d1 d2 : PyDate) : Bool := d1.toordinal < d2.toordinal

/-- Comparison `d1 <= d2` on dates. -/
def PyDate.le (d1 d2 : PyDate) : Bool := d1.toordinal ≤ d2.toordinal

/-- The numeric value of an ASCII digit. -/
def digitVal (c : Char) : Nat := c.toNat - 48

/-- Embeds `datetime.fromisoformat(value).date()` on a date-only string:
succeeds exactly on `YYYY-MM-DD` with a valid calendar date in years
1–9999; any other string raises `ValueError` (`none`).  (The repository
only ever passes date-only strings.) -/
def pyFromisoformat (s : String) : Option PyDate :=
  match s.toList with
  | [y1, y2, y3, y4, c1, m1, m2, c2, d1, d2] =>
      if y1.isDigit && y2.isDigit && y3.isDigit && y4.isDigit &&
         (c1 = '-') && m1.isDigit && m2.isDigit &&
         (c2 = '-') && d1.isDigit && d2.isDigit then
        let y := 1000 * digitVal y1 + 100 * digitVal y2 +
                 10 * digitVal y3 + digitVal y4
        let m := 10 * digitVal m1 + digitVal m2
        let d := 10 * digitVal d1 + digitVal d2
        if 1 ≤ y && 1 ≤ m && m ≤ 12 && 1 ≤ d && d ≤ daysInMonth y m then
          some ⟨y, m, d⟩
        else none
      else none
  | _ => none

/-- Python truthiness of an optional date string
(`not value` for `data.get(field)`): `None` and `""` are falsy. -/
def strFieldTruthy (f : PyField String) : Bool :=
  match f with
  | .val s => s ≠ ""
  | _ => false

/-- Validation thresholds (validation_rules.py lines 34–38). -/
def MAX_DAY_RATE : Rat := 1200

/-- Minimum plausible day rate. -/
def MIN_DAY_RATE : Rat := 200

/-- Maximum plausible contract value. -/
def MAX_CONTRACT_VALUE : Rat := 10000000

/-- Maximum plausible contract duration in years. -/
def MAX_CONTRACT_YEARS : Nat := 3

/-- The `ClientNameRequiredRule`: violation when `client_name` is falsy or a
blank string. -/
def clientNameRequiredRule (_today : PyDate) (d : SowData) :
    Except PyErr (Option Violation) :=
  match d.client_name with
  | .val s =>
      if s = "" || !pyStripNonEmpty s.toList then
        .ok (some ⟨"VAL_CLIENT_MISSING", "client_name", .error⟩)
      else .ok none
  | _ => .ok (some ⟨"VAL_CLIENT_MISSING", "client_name", .error⟩)

/-- The `DateMissingRule(field)`: violation when the field is falsy. -/
def dateMissingRule (field : String) (get : SowData → PyField String)
    (_today : PyDate) (d : SowData) : Except PyErr (Option Violation) :=
  if strFieldTruthy (get d) then .ok none
  else .ok (some ⟨"VAL_DATE_MISSING", field, .error⟩)

/-- The `DateFormatRule(field)`: skip when falsy; violation when
`fromisoformat` raises `ValueError`. -/
def dateFormatRule (field : String) (get : SowData → PyField String)
    (_today : PyDate) (d : SowData) : Except PyErr (Option Violation) :=
  match get d with
  | .val s =>
      if s = "" then .ok none
      else
        match pyFromisoformat s with
        | some _ => .ok none
        | none => .ok (some ⟨"VAL_DATE_FORMAT", field, .error⟩)
  | _ => .ok none

/-- The `DateRangeRule`: skip when either date is falsy or unparsable;
violation when `end <= start`. -/
def dateRangeRule (_today : PyDate) (d : SowData) :
    Except PyErr (Option Violation) :=
  if !strFieldTruthy d.start_date || !strFieldTruthy d.end_date then
    .ok none
  else
    match d.start_date.get, d.end_date.get with
    | some ss, some es =>
        match pyFromisoformat ss, pyFromisoformat es with
        | some s, some e =>
            if e.le s then
              .ok (some ⟨"VAL_DATE_RANGE", "start_date,end_date", .error⟩)
            else .ok none
        | _, _ => .ok none
    | _, _ => .ok none

/-- The `DatePastRule`: skip when falsy or unparsable; warning when
`end < today`. -/
def datePastRule (today : PyDate) (d : SowData) :
    Except PyErr (Option Violation) :=
  match d.end_date with
  | .val s =>
      if s = "" then .ok none
      else
        match pyFromisoformat s with
        | some e =>
            if e.lt today then
              .ok (some ⟨"VAL_DATE_PAST", "end_date", .warning⟩)
            else .ok none
        | none => .ok none
  | _ => .ok none

/-- The `DateLongDurationRule`: skip when either date is falsy or
unparsable; warning when the duration exceeds `365 * 3` days. -/
def dateLongDurationRule (_today : PyDate) (d : SowData) :
    Except PyErr (Option Violation) :=
  if !strFieldTruthy d.start_date || !strFieldTruthy d.end_date then
    .ok none
  else
    match d.start_date.get, d.end_date.get with
    | some ss, some es =>
        match pyFromisoformat ss, pyFromisoformat es with
        | some s, some e =>
            if (e.toordinal : Int) - (s.toordinal : Int) >
                365 * MAX_CONTRACT_YEARS then
              .ok (some ⟨"VAL_DATE_LONG", "start_date,end_date", .warning⟩)
            else .ok none
        | _, _ => .ok none
    | _, _ => .ok none

/-- The `ContractValueMissingRule`: warning when `contract_value` is
`None`. -/
def contractValueMissingRule (_today : PyDate) (d : SowData) :
    Except PyErr (Option Violation) :=
  match d.contract_value.get with
  | none => .ok (some ⟨"VAL_VALUE_MISSING", "contract_value", .warning⟩)
  | some _ => .ok none

/-- The `ContractValueInvalidRule`: error when present and `<= 0`. -/
def contractValueInvalidRule (_today : PyDate) (d : SowData) :
    Except PyErr (Option Violation) :=
  match d.contract_value.get with
  | some v =>
      if v ≤ 0 then
        .ok (some ⟨"VAL_VALUE_INVALID", "contract_value", .error⟩)
      else .ok none
  | none => .ok none

/-- The `ContractValueHighRule`: warning when present and above the
threshold. -/
def contractValueHighRule (_today : PyDate) (d : SowData) :
    Except PyErr (Option Violation) :=
  match d.contract_value.get with
  | some v =>
      if v > MAX_CONTRACT_VALUE then
        .ok (some ⟨"VAL_VALUE_HIGH", "contract_value", .warning⟩)
      else .ok none
  | none => .ok none

/-- Embeds `rate_info.get("rate", 0)`: `0` when the key is absent, `None` when
the key holds `None` (in which case comparing with an int raises
`TypeError`). -/
def rateValue (e : DayRateEntry) : Except PyErr Rat :=
  match e.rate with
  | .absent => .ok 0
  | .null => .error .typeError
  | .val q => .ok q

/-- The `for idx, rate_info in enumerate(day_rates)` loop of
`DayRateInvalidRule`: returns the first violation, raising on a `None`
rate. -/
def dayRateInvalidLoop : List DayRateEntry → Nat →
    Except PyErr (Option Violation)
  | [], _ => .ok none
  | e :: rest, idx =>
      match rateValue e with
      | .error err => .error err
      | .ok q =>
          if q ≤ 0 then
            .ok (some ⟨"VAL_RATE_INVALID", s!"day_rates[{idx}].rate",
                       .error⟩)
          else dayRateInvalidLoop rest (idx + 1)

/-- The `DayRateInvalidRule`: `data.get("day_rates", [])` yields `[]` when
the key is absent but `None` when the key holds `None`; iterating `None`
raises `TypeError`. -/
def dayRateInvalidRule (_today : PyDate) (d : SowData) :
    Except PyErr (Option Violation) :=
  match d.day_rates with
  | .absent => dayRateInvalidLoop [] 0
  | .null => .error .typeError
  | .val rs => dayRateInvalidLoop rs 0

/-- The loop of `DayRateHighRule`. -/
def dayRateHighLoop : List DayRateEntry → Nat →
    Except PyErr (Option Violation)
  | [], _ => .ok none
  | e :: rest, idx =>
      match rateValue e with
      | .error err => .error err
      | .ok q =>
          if q > MAX_DAY_RATE then
            .ok (some ⟨"VAL_RATE_HIGH", s!"day_rates[{idx}].rate",
                       .warning⟩)
          else dayRateHighLoop rest (idx + 1)

/-- The `DayRateHighRule`. -/
def dayRateHighRule (_today : PyDate) (d : SowData) :
    Except PyErr (Option Violation) :=
  match d.day_rates with
  | .absent => dayRateHighLoop [] 0
  | .null => .error .typeError
  | .val rs => dayRateHighLoop rs 0

/-- The loop of `DayRateLowRule`. -/
def dayRateLowLoop : List DayRateEntry → Nat →
    Except PyErr (Option Violation)
  | [], _ => .ok none
  | e :: rest, idx =>
      match rateValue e with
      | .error err => .error err
      | .ok q =>
          if 0 < q ∧ q < MIN_DAY_RATE then
            .ok (some ⟨"VAL_RATE_LOW", s!"day_rates[{idx}].rate",
                       .warning⟩)
          else dayRateLowLoop rest (idx + 1)

/-- The `DayRateLowRule`. -/
def dayRateLowRule (_today : PyDate) (d : SowData) :
    Except PyErr (Option Violation) :=
  match d.day_rates with
  | .absent => dayRateLowLoop [] 0
  | .null => .error .typeError
  | .val rs => dayRateLowLoop rs 0

/-- The fixed rule table `VALIDATION_RULES`
(validation_rules.py lines 316–338), in source order. -/
def VALIDATION_RULES :
    List (PyDate → SowData → Except PyErr (Option Violation)) :=
  [clientNameRequiredRule,
   dateMissingRule "start_date" (·.start_date),
   dateMissingRule "end_date" (·.end_date),
   dateFormatRule "start_date" (·.start_date),
   dateFormatRule "end_date" (·.end_date),
   dateRangeRule,
   datePastRule,
   dateLongDurationRule,
   contractValueMissingRule,
   contractValueInvalidRule,
   contractValueHighRule,
   dayRateInvalidRule,
   dayRateHighRule,
   dayRateLowRule]

/-- The accumulation loop of `validate_structured_data` over a rule
list: each violation is appended to `errors` or `warnings` by severity;
an uncaught exception in a rule propagates. -/
def runRules (rules : List (PyDate → SowData → Except PyErr (Option Violation)))
    (today : PyDate) (d : SowData) :
    Except PyErr (List Violation × List Violation) :=
  match rules with
  | [] => .ok ([], [])
  | r :: rest =>
      match r today d with
      | .error e => .error e
      | .ok v =>
          match runRules rest today d with
          | .error e => .error e
          | .ok (errs, warns) =>
              match v with
              | none => .ok (errs, warns)
              | some viol =>
                  if viol.severity = .error then
                    .ok (viol :: errs, warns)
                  else
                    .ok (errs, viol :: warns)

/-- Embeds `validate_structured_data(data)` (validation_rules.py lines
341–363): run every rule of `VALIDATION_RULES`, partition violations by
severity, and report `validation_passed = len(errors) == 0`. -/
def validate_structured_data (today : PyDate) (d : SowData) :
    Except PyErr (Bool × List Violation × List Violation) :=
  match runRules VALIDATION_RULES today d with
  | .error e => .error e
  | .ok (errs, warns) => .ok (errs.isEmpty, errs, warns)

/-! ## Helper lemmas: chunking -/

theorem pyStripNonEmpty_of_all (l : List Char) (hne : l ≠ [])
    (hall : ∀ c ∈ l, pyIsSpace c = false) : pyStripNonEmpty l = true := by
  cases l with
  | nil => exact absurd rfl hne
  | cons c rest =>
      have hc := hall c (by simp)
      simp [pyStripNonEmpty, hc]

theorem chunkLoop_step_mid (text : List Char) (cs ov : Nat) (hov : ov < cs)
    (start : Nat) (h : start + cs < text.length) :
    chunkLoop text cs ov hov start =
      (if pyStripNonEmpty (seg text start (start + cs)) then
        seg text start (start + cs) ::
          chunkLoop text cs ov hov (start + cs - ov)
      else chunkLoop text cs ov hov (start + cs - ov)) := by
  rw [chunkLoop]
  have h1 : start < text.length := by omega
  have h2 : min (start + cs) text.length = start + cs := by omega
  simp only [h1, dif_pos, h2]
  have h3 : ¬ (start + cs = text.length) := by omega
  simp [h3]

theorem chunkLoop_step_last (text : List Char) (cs ov : Nat) (hov : ov < cs)
    (start : Nat) (h1 : start < text.length)
    (h2 : text.length ≤ start + cs) :
    chunkLoop text cs ov hov start =
      (if pyStripNonEmpty (seg text start text.length) then
        [seg text start text.length] else []) := by
  rw [chunkLoop]
  have h3 : min (start + cs) text.length = text.length := by omega
  simp [h1, h3]

theorem chunkLoop_all_nonblank (text : List Char) (cs ov : Nat)
    (hov : ov < cs) (start : Nat) :
    ∀ c ∈ chunkLoop text cs ov hov start, pyStripNonEmpty c = true := by
  induction start using chunkLoop.induct text cs ov hov with
  | case1 start h e chunk he hnb =>
      rw [chunkLoop]
      simp only [dif_pos h, dif_pos he, if_pos hnb]
      intro c hc
      simp only [List.mem_singleton] at hc
      subst hc
      exact hnb
  | case2 start h e chunk he hnb =>
      have hnb' :
          ¬ (pyStripNonEmpty (seg text start (min (start + cs)
              text.length)) = true) := hnb
      rw [chunkLoop]
      simp only [dif_pos h, dif_pos he, if_neg hnb']
      simp
  | case3 start h e chunk he hnb ih =>
      rw [chunkLoop]
      simp only [dif_pos h, dif_neg he, if_pos hnb]
      intro c hc
      rcases List.mem_cons.mp hc with rfl | hc
      · exact hnb
      · exact ih c hc
  | case4 start h e chunk he hnb ih =>
      have hnb' :
          ¬ (pyStripNonEmpty (seg text start (min (start + cs)
              text.length)) = true) := hnb
      rw [chunkLoop]
      simp only [dif_pos h, dif_neg he, if_neg hnb']
      exact ih
  | case5 start h =>
      rw [chunkLoop]
      simp [h]

theorem seg_subset (text : List Char) (a b : Nat) :
    ∀ c ∈ seg text a b, c ∈ text := by
  intro c hc
  exact List.drop_subset a text (List.take_subset _ _ hc)

theorem seg_ne_nil (text : List Char) (a b : Nat) (ha : a < text.length)
    (hb : a < b) : seg text a b ≠ [] := by
  have : (seg text a b).length ≠ 0 := by
    simp [seg, List.length_take, List.length_drop]
    omega
  intro hcon
  simp [hcon] at this

theorem seg_nonblank (text : List Char) (a b : Nat) (ha : a < text.length)
    (hb : a < b) (hall : ∀ c ∈ text, pyIsSpace c = false) :
    pyStripNonEmpty (seg text a b) = true :=
  pyStripNonEmpty_of_all _ (seg_ne_nil text a b ha hb)
    (fun c hc => hall c (seg_subset text a b c hc))

theorem seg_length (text : List Char) (a b : Nat) :
    (seg text a b).length = min (b - a) (text.length - a) := by
  simp [seg, List.length_take, List.length_drop]

/-! ## Claim theorems: chunking -/

/-- C3: `chunk_text` with `size=30`, `overlap=10` on a 100-character
input (whose characters are non-whitespace, so that no window is
dropped) yields exactly the windows starting at offsets 0, 20, 40, 60,
80 — each subsequent start offset by `size - overlap = 20` — of lengths
30, 30, 30, 30, 20 (length 30 until the final chunk); and for every
`overlap >= size`, `chunk_text` raises a configuration `ValueError`
before producing any chunk. -/
theorem c3_chunk_window_shape_and_overlap_guard (text : List Char)
    (h100 : text.length = 100)
    (hall : ∀ c ∈ text, pyIsSpace c = false) :
    chunk_text text 30 10 =
      .ok [seg text 0 30, seg text 20 50, seg text 40 70,
           seg text 60 90, seg text 80 100] ∧
    [seg text 0 30, seg text 20 50, seg text 40 70,
     seg text 60 90, seg text 80 100].map List.length =
      [30, 30, 30, 30, 20] ∧
    (∀ (t : List Char) (size ov : Nat), size ≤ ov →
      chunk_text t size ov = .error "CHUNK_OVERLAP must be < CHUNK_SIZE") := by
  refine ⟨?_, ?_, ?_⟩
  · unfold chunk_text
    rw [dif_neg (by omega)]
    congr 1
    rw [chunkLoop_step_mid text 30 10 (by omega) 0 (by omega),
        if_pos (seg_nonblank text 0 (0 + 30) (by omega) (by omega) hall)]
    norm_num
    rw [chunkLoop_step_mid text 30 10 (by omega) 20 (by omega),
        if_pos (seg_nonblank text 20 (20 + 30) (by omega) (by omega) hall)]
    norm_num
    rw [chunkLoop_step_mid text 30 10 (by omega) 40 (by omega),
        if_pos (seg_nonblank text 40 (40 + 30) (by omega) (by omega) hall)]
    norm_num
    rw [chunkLoop_step_mid text 30 10 (by omega) 60 (by omega),
        if_pos (seg_nonblank text 60 (60 + 30) (by omega) (by omega) hall)]
    norm_num
    rw [chunkLoop_step_last text 30 10 (by omega) 80 (by omega) (by omega),
        if_pos (seg_nonblank text 80 text.length (by omega) (by omega)
          hall)]
    rw [h100]
  · simp [seg_length, h100]
  · intro t size ov hle
    unfold chunk_text
    rw [dif_pos hle]

/-- Witness for C3 at the concrete input of 100 letters `a`. -/
theorem c3_witness :
    chunk_text (List.replicate 100 'a') 30 10 =
      .ok [seg (List.replicate 100 'a') 0 30,
           seg (List.replicate 100 'a') 20 50,
           seg (List.replicate 100 'a') 40 70,
           seg (List.replicate 100 'a') 60 90,
           seg (List.replicate 100 'a') 80 100] ∧
    chunk_text ['t', 'e', 'x', 't'] 100 150 =
      .error "CHUNK_OVERLAP must be < CHUNK_SIZE" :=
  ⟨(c3_chunk_window_shape_and_overlap_guard (List.replicate 100 'a')
      (by decide) (by decide)).1,
   (c3_chunk_window_shape_and_overlap_guard (List.replicate 100 'a')
      (by decide) (by decide)).2.2 ['t', 'e', 'x', 't'] 100 150
      (by decide)⟩

/-- C9: every chunk returned by `chunk_text` contains at least one
non-whitespace character; all-whitespace windows are silently dropped,
so the chunk list can be strictly shorter than for an input of the same
length whose windows are non-blank, and the concatenation of the chunks
need not cover the input; the final chunk may be shorter than the
configured size. -/
theorem c9_chunks_nonblank_and_windows_dropped :
    (∀ (text : List Char) (cs ov : Nat) (chunks : List (List Char)),
      chunk_text text cs ov = .ok chunks →
      ∀ c ∈ chunks, pyStripNonEmpty c = true) ∧
    chunk_text ['a', 'b', ' ', ' ', 'c', 'd'] 2 0 =
      .ok [['a', 'b'], ['c', 'd']] ∧
    chunk_text ['a', 'b', 'x', 'x', 'c', 'd'] 2 0 =
      .ok [['a', 'b'], ['x', 'x'], ['c', 'd']] ∧
    (['a', 'b'] ++ ['c', 'd'] ≠ ['a', 'b', ' ', ' ', 'c', 'd']) ∧
    chunk_text ['a', 'b', 'c'] 2 0 = .ok [['a', 'b'], ['c']] ∧
    (['c'].length < 2) := by
  refine ⟨?_,
    by simp [chunk_text, chunkLoop, seg, pyStripNonEmpty, pyIsSpace],
    by simp [chunk_text, chunkLoop, seg, pyStripNonEmpty, pyIsSpace],
    by decide,
    by simp [chunk_text, chunkLoop, seg, pyStripNonEmpty, pyIsSpace],
    by decide⟩
  intro text cs ov chunks hok c hc
  unfold chunk_text at hok
  by_cases hle : cs ≤ ov
  · rw [dif_pos hle] at hok
    exact absurd hok (by simp)
  · rw [dif_neg hle] at hok
    have := Except.ok.inj hok
    subst this
    exact chunkLoop_all_nonblank text cs ov (by omega) 0 c hc

/-- Witness for C9 at a concrete accepted chunking. -/
theorem c9_witness :
    chunk_text ['a'] 2 1 = .ok [['a']] ∧
    (∀ c ∈ [['a']], pyStripNonEmpty c = true) :=
  ⟨by simp [chunk_text, chunkLoop, seg, pyStripNonEmpty, pyIsSpace],
   c9_chunks_nonblank_and_windows_dropped.1 ['a'] 2 1 [['a']]
     (by simp [chunk_text, chunkLoop, seg, pyStripNonEmpty, pyIsSpace])⟩


/-! ## Helper lemmas and claim theorems: retry/backoff executor -/

theorem backoffLoop_attempts_le (trace : Nat → CallResult) (jd : Nat → Rat)
    (maxAttempts a : Nat) :
    (backoffLoop trace jd maxAttempts a).attempts ≤ maxAttempts - a := by
  induction a using backoffLoop.induct trace jd maxAttempts with
  | case1 a h emb heq =>
      rw [backoffLoop]
      simp [h, heq]
      omega
  | case2 a h status heq hc ih =>
      rw [backoffLoop]
      simp only [dif_pos h, heq, if_pos hc]
      show (backoffLoop trace jd maxAttempts (a + 1)).attempts + 1 ≤
        maxAttempts - a
      omega
  | case3 a h status heq hc =>
      rw [backoffLoop]
      simp only [dif_pos h, heq, if_neg hc]
      omega
  | case4 a h heq hc ih =>
      rw [backoffLoop]
      simp only [dif_pos h, heq, if_pos hc]
      show (backoffLoop trace jd maxAttempts (a + 1)).attempts + 1 ≤
        maxAttempts - a
      omega
  | case5 a h heq hc =>
      rw [backoffLoop]
      simp only [dif_pos h, heq, if_neg hc]
      omega
  | case6 a h =>
      rw [backoffLoop]
      simp [h]

theorem backoffLoop_attempts_pos (trace : Nat → CallResult) (jd : Nat → Rat)
    (maxAttempts a : Nat) (ha : a < maxAttempts) :
    1 ≤ (backoffLoop trace jd maxAttempts a).attempts := by
  rw [backoffLoop]
  simp only [dif_pos ha]
  cases htr : trace a with
  | success emb => simp
  | clientError status =>
      by_cases hc : status ∈ RETRYABLE_STATUS ∧ a < maxAttempts - 1
      · simp only [if_pos hc]
        show 1 ≤ (backoffLoop trace jd maxAttempts (a + 1)).attempts + 1
        omega
      · simp only [if_neg hc]
        omega
  | otherError =>
      by_cases hc : a < maxAttempts - 1
      · simp only [if_pos hc]
        show 1 ≤ (backoffLoop trace jd maxAttempts (a + 1)).attempts + 1
        omega
      · simp only [if_neg hc]
        omega

theorem backoffLoop_sleeps_schedule (trace : Nat → CallResult)
    (jd : Nat → Rat) (maxAttempts a : Nat) :
    (backoffLoop trace jd maxAttempts a).sleeps =
      (List.range ((backoffLoop trace jd maxAttempts a).attempts - 1)).map
        (fun i => (backoffSleep (a + i) : Rat) + jd (a + i)) := by
  induction a using backoffLoop.induct trace jd maxAttempts with
  | case1 a h emb heq =>
      rw [backoffLoop]
      simp [h, heq]
  | case2 a h status heq hc ih =>
      rw [backoffLoop]
      simp only [dif_pos h, heq, if_pos hc]
      show ((backoffSleep a : Rat) + jd a) ::
          (backoffLoop trace jd maxAttempts (a + 1)).sleeps =
        (List.range ((backoffLoop trace jd maxAttempts (a + 1)).attempts +
          1 - 1)).map (fun i => (backoffSleep (a + i) : Rat) + jd (a + i))
      have hpos := backoffLoop_attempts_pos trace jd maxAttempts (a + 1)
        (by omega)
      obtain ⟨k, hk⟩ : ∃ k,
          (backoffLoop trace jd maxAttempts (a + 1)).attempts = k + 1 :=
        ⟨_, (Nat.succ_pred_eq_of_pos hpos).symm⟩
      rw [ih, hk]
      simp only [Nat.add_sub_cancel, List.range_succ_eq_map, List.map_cons,
        List.map_map]
      congr 1
      apply List.map_congr_left
      intro i hik
      have harg : a + 1 + i = a + (i + 1) := by omega
      simp [Function.comp, Nat.succ_eq_add_one, harg]
  | case3 a h status heq hc =>
      rw [backoffLoop]
      simp [h, heq, hc]
  | case4 a h heq hc ih =>
      rw [backoffLoop]
      simp only [dif_pos h, heq, if_pos hc]
      show ((backoffSleep a : Rat) + jd a) ::
          (backoffLoop trace jd maxAttempts (a + 1)).sleeps =
        (List.range ((backoffLoop trace jd maxAttempts (a + 1)).attempts +
          1 - 1)).map (fun i => (backoffSleep (a + i) : Rat) + jd (a + i))
      have hpos := backoffLoop_attempts_pos trace jd maxAttempts (a + 1)
        (by omega)
      obtain ⟨k, hk⟩ : ∃ k,
          (backoffLoop trace jd maxAttempts (a + 1)).attempts = k + 1 :=
        ⟨_, (Nat.succ_pred_eq_of_pos hpos).symm⟩
      rw [ih, hk]
      simp only [Nat.add_sub_cancel, List.range_succ_eq_map, List.map_cons,
        List.map_map]
      congr 1
      apply List.map_congr_left
      intro i hik
      have harg : a + 1 + i = a + (i + 1) := by omega
      simp [Function.comp, Nat.succ_eq_add_one, harg]
  | case5 a h heq hc =>
      rw [backoffLoop]
      simp [h, heq, hc]
  | case6 a h =>
      rw [backoffLoop]
      simp [h]

theorem backoffLoop_exhaust (trace : Nat → CallResult) (jd : Nat → Rat)
    (maxAttempts a : Nat) (ha : a < maxAttempts)
    (hall : ∀ i, a ≤ i → i < maxAttempts → retryableFail (trace i) = true) :
    (backoffLoop trace jd maxAttempts a).result = none ∧
    (backoffLoop trace jd maxAttempts a).attempts = maxAttempts - a := by
  induction a using backoffLoop.induct trace jd maxAttempts with
  | case1 a h emb heq =>
      have := hall a (le_refl a) h
      rw [heq] at this
      simp [retryableFail] at this
  | case2 a h status heq hc ih =>
      rw [backoffLoop]
      simp only [dif_pos h, heq, if_pos hc]
      have hrest := ih (by omega)
        (fun i hi1 hi2 => hall i (by omega) hi2)
      refine ⟨hrest.1, ?_⟩
      show (backoffLoop trace jd maxAttempts (a + 1)).attempts + 1 =
        maxAttempts - a
      omega
  | case3 a h status heq hc =>
      have hmem := hall a (le_refl a) h
      rw [heq] at hmem
      simp [retryableFail] at hmem
      have ha1 : a = maxAttempts - 1 := by
        rcases Decidable.not_and_iff_or_not.mp hc with h1 | h2
        · exact absurd (by simpa [RETRYABLE_STATUS] using hmem) h1
        · omega
      rw [backoffLoop]
      simp only [dif_pos h, heq]
      rw [if_neg hc]
      refine ⟨rfl, ?_⟩
      show 1 = maxAttempts - a
      omega
  | case4 a h heq hc ih =>
      rw [backoffLoop]
      simp only [dif_pos h, heq, if_pos hc]
      have hrest := ih (by omega)
        (fun i hi1 hi2 => hall i (by omega) hi2)
      refine ⟨hrest.1, ?_⟩
      show (backoffLoop trace jd maxAttempts (a + 1)).attempts + 1 =
        maxAttempts - a
      omega
  | case5 a h heq hc =>
      rw [backoffLoop]
      simp only [dif_pos h, heq]
      rw [if_neg hc]
      refine ⟨rfl, ?_⟩
      show 1 = maxAttempts - a
      omega
  | case6 a h =>
      exact absurd ha h

theorem backoffLoop_fatal (trace : Nat → CallResult) (jd : Nat → Rat)
    (maxAttempts a : Nat) (ha : a < maxAttempts) (status : Nat)
    (hs : status ∉ RETRYABLE_STATUS) (heq : trace a = .clientError status) :
    backoffLoop trace jd maxAttempts a = ⟨none, [], 1⟩ := by
  rw [backoffLoop]
  simp only [dif_pos ha, heq]
  rw [if_neg (by tauto)]

/-- C7 counterexample: a non-ClientError exception at attempt 0 is not
fatal — the executor sleeps and retries, and the call then succeeds on
attempt 1 (2 attempts, result forwarded).  This refutes the claim that
every failure outside the retryable status class {429, 500, 502, 503,
504} is fatal for the call: the source's bare `except Exception` branch
retries any non-ClientError failure. -/
theorem c7_counterexample_generic_exception_retried :
    generate_embedding_with_backoff
        (fun i => if i = 0 then CallResult.otherError
          else .success (some [7])) (fun _ => 0) 5 =
      ⟨some [7], [1], 2⟩ ∧
    (∀ status : Nat, CallResult.otherError ≠ .clientError status) := by
  constructor
  · rw [generate_embedding_with_backoff, backoffLoop]
    norm_num
    rw [backoffLoop]
    norm_num [backoffSleep]
  · intro status hcon
    cases hcon

/-- C7 (amended): for the per-item embedding call with its default 5
attempts, a ClientError failure with status outside {429, 500, 502, 503,
504} is fatal (one attempt, no sleep, caller-visible `None`); at most 5
attempts are made; before retry attempt `i+1` the executor sleeps
`min(8, 2^i) + jitter` (base 2, cap 8 seconds, 0-indexed by the failing
attempt); and when every attempt fails retryably (retryable ClientError
or any non-ClientError exception), the executor exhausts all 5 attempts
and returns the caller-visible failure value `None` rather than raising. -/
theorem c7_amended_retry_classification (trace : Nat → CallResult)
    (jd : Nat → Rat) :
    (∀ status : Nat, status ∉ RETRYABLE_STATUS →
      trace 0 = .clientError status →
      generate_embedding_with_backoff trace jd 5 = ⟨none, [], 1⟩) ∧
    (generate_embedding_with_backoff trace jd 5).attempts ≤ 5 ∧
    (generate_embedding_with_backoff trace jd 5).sleeps =
      (List.range ((generate_embedding_with_backoff trace jd 5).attempts
        - 1)).map (fun i => ((min 8 (2 ^ i) : Nat) : Rat) + jd i) ∧
    ((∀ i, i < 5 → retryableFail (trace i) = true) →
      (generate_embedding_with_backoff trace jd 5).result = none ∧
      (generate_embedding_with_backoff trace jd 5).attempts = 5) := by
  refine ⟨?_, ?_, ?_, ?_⟩
  · intro status hs heq
    exact backoffLoop_fatal trace jd 5 0 (by omega) status hs heq
  · simpa using backoffLoop_attempts_le trace jd 5 0
  · simpa [backoffSleep] using backoffLoop_sleeps_schedule trace jd 5 0
  · intro hall
    simpa using backoffLoop_exhaust trace jd 5 0 (by omega)
      (fun i _ hi => hall i hi)

/-- Witness for C7 (amended): a 400 ClientError is fatal on the first
attempt; a permanent 429 exhausts all 5 attempts and returns `None`. -/
theorem c7_amended_witness :
    (400 ∉ RETRYABLE_STATUS ∧
     generate_embedding_with_backoff (fun _ => CallResult.clientError 400)
       (fun _ => 0) 5 = ⟨none, [], 1⟩) ∧
    ((generate_embedding_with_backoff (fun _ => CallResult.clientError 429)
       (fun _ => 0) 5).result = none ∧
     (generate_embedding_with_backoff (fun _ => CallResult.clientError 429)
       (fun _ => 0) 5).attempts = 5) :=
  ⟨⟨by decide,
    (c7_amended_retry_classification (fun _ => CallResult.clientError 400)
      (fun _ => 0)).1 400 (by decide) rfl⟩,
   (c7_amended_retry_classification (fun _ => CallResult.clientError 429)
      (fun _ => 0)).2.2.2 (fun i _ => by decide)⟩

/-! ## Helper lemmas and claim theorems: manifest-gated stage run -/

theorem embedChunks_events_putChunk (outcomes : Nat → Bool) (l : List Nat) :
    ∀ ev ∈ (embedChunks outcomes l).1, ∃ i, ev = .putChunk i := by
  induction l with
  | nil => simp [embedChunks]
  | cons idx rest ih =>
      intro ev hev
      rw [embedChunks] at hev
      by_cases ho : outcomes idx
      · simp only [ho, if_pos] at hev
        rcases List.mem_cons.mp hev with rfl | hmem
        · exact ⟨idx, rfl⟩
        · exact ih ev hmem
      · simp only [ho] at hev
        exact ih ev hev

/-- C1: a stored manifest satisfying the completion invariant
(`embedded >= chunks > 0`) makes the stage skip all work: zero external
derivation calls, and the forwarded envelope is built from the stored
manifest counts; running the stage twice against the same stored state
forwards identical output; and a stored manifest failing the invariant
never causes a skip — the run is identical to a fresh (`ABSENT`) run,
performing one derivation call per chunk. -/
theorem c1_manifest_gated_idempotency (docId textKey pfx : String)
    (text : List Char) (cs ov : Nat) (outcomes : Nat → Bool)
    (minRatio : Rat) (chunks embedded : Int)
    (hc : manifestComplete chunks embedded = true) :
    (stageRunOnce (.present chunks embedded) docId textKey pfx text cs ov
        outcomes minRatio =
      ⟨[.sendMessage ⟨docId, textKey, pfx, chunks, embedded⟩],
       some ⟨docId, textKey, pfx, chunks, embedded⟩, 0, false⟩) ∧
    (stageRunOnce (.present chunks embedded) docId textKey pfx text cs ov
        outcomes minRatio =
      stageRunOnce (.present chunks embedded) docId textKey pfx text cs ov
        outcomes minRatio) ∧
    (∀ chunks' embedded' : Int, manifestComplete chunks' embedded' = false →
      stageRunOnce (.present chunks' embedded') docId textKey pfx text cs
        ov outcomes minRatio =
      stageRunOnce .absent docId textKey pfx text cs ov outcomes
        minRatio) ∧
    (∀ chunks' embedded' : Int, manifestComplete chunks' embedded' = false →
      ∀ cl : List (List Char), chunk_text text cs ov = .ok cl →
      (stageRunOnce (.present chunks' embedded') docId textKey pfx text cs
        ov outcomes minRatio).embedCalls = cl.length) := by
  refine ⟨?_, rfl, ?_, ?_⟩
  · simp [stageRunOnce, hc]
  · intro chunks' embedded' hnc
    simp [stageRunOnce, hnc]
  · intro chunks' embedded' hnc cl hok
    simp only [stageRunOnce, hnc, Bool.false_eq_true, if_false]
    rw [stageRunOnce.stageRunProcess, hok]
    split
    next heq => cases heq
    next chunksm heq =>
      cases heq
      dsimp only
      split <;> rfl

/-- Witness for C1: a complete manifest (3 chunks, 3 embedded) skips and
forwards the stored counts; an incomplete one (3 chunks, 2 embedded)
runs the full fresh path. -/
theorem c1_witness :
    (stageRunOnce (.present 3 3) "doc" "key" "pfx" ['a', 'b'] 2 0
        (fun _ => true) EMBED_SUCCESS_MIN =
      ⟨[.sendMessage ⟨"doc", "key", "pfx", 3, 3⟩],
       some ⟨"doc", "key", "pfx", 3, 3⟩, 0, false⟩) ∧
    (stageRunOnce (.present 3 2) "doc" "key" "pfx" ['a', 'b'] 2 0
        (fun _ => true) EMBED_SUCCESS_MIN =
      stageRunOnce .absent "doc" "key" "pfx" ['a', 'b'] 2 0
        (fun _ => true) EMBED_SUCCESS_MIN) :=
  ⟨(c1_manifest_gated_idempotency "doc" "key" "pfx" ['a', 'b'] 2 0
      (fun _ => true) EMBED_SUCCESS_MIN 3 3 (by decide)).1,
   (c1_manifest_gated_idempotency "doc" "key" "pfx" ['a', 'b'] 2 0
      (fun _ => true) EMBED_SUCCESS_MIN 3 3 (by decide)).2.2.1
      3 2 (by decide)⟩

/-- C2: in the processing path, with
`success_ratio = persisted / max(1, total)`, a ratio strictly below the
configured minimum raises without writing a manifest (no manifest write
occurs, so the stored manifest state is unchanged) and forwards nothing;
a ratio at or above the minimum — including exactly equal — writes the
manifest as the last S3 write, after every item artifact, and forwards
the whitelisted envelope. -/
theorem c2_success_ratio_gate (docId textKey pfx : String)
    (text : List Char) (cs ov : Nat) (outcomes : Nat → Bool)
    (minRatio : Rat) (cl : List (List Char))
    (hok : chunk_text text cs ov = .ok cl) :
    (((embedChunks outcomes (List.range cl.length)).2 : Rat) /
        ((max 1 cl.length : Nat) : Rat) < minRatio →
      stageRunOnce .absent docId textKey pfx text cs ov outcomes minRatio =
        ⟨(embedChunks outcomes (List.range cl.length)).1, none,
         cl.length, true⟩ ∧
      ∀ c e : Int, StageEvent.putManifest c e ∉
        (stageRunOnce .absent docId textKey pfx text cs ov outcomes
          minRatio).events) ∧
    (minRatio ≤ ((embedChunks outcomes (List.range cl.length)).2 : Rat) /
        ((max 1 cl.length : Nat) : Rat) →
      stageRunOnce .absent docId textKey pfx text cs ov outcomes minRatio =
        ⟨(embedChunks outcomes (List.range cl.length)).1 ++
          [.putManifest (cl.length : Int)
            ((embedChunks outcomes (List.range cl.length)).2 : Int),
           .sendMessage ⟨docId, textKey, pfx, (cl.length : Int),
            ((embedChunks outcomes (List.range cl.length)).2 : Int)⟩],
         some ⟨docId, textKey, pfx, (cl.length : Int),
          ((embedChunks outcomes (List.range cl.length)).2 : Int)⟩,
         cl.length, false⟩) := by
  constructor
  · intro hlt
    have hrun : stageRunOnce .absent docId textKey pfx text cs ov outcomes
        minRatio =
        ⟨(embedChunks outcomes (List.range cl.length)).1, none,
         cl.length, true⟩ := by
      show stageRunOnce.stageRunProcess docId textKey pfx text cs ov
        outcomes minRatio = _
      rw [stageRunOnce.stageRunProcess, hok]
      simp only [if_pos hlt]
    refine ⟨hrun, ?_⟩
    intro c e hmem
    rw [hrun] at hmem
    rcases embedChunks_events_putChunk outcomes (List.range cl.length) _
      hmem with ⟨i, hi⟩
    cases hi
  · intro hge
    show stageRunOnce.stageRunProcess docId textKey pfx text cs ov
      outcomes minRatio = _
    rw [stageRunOnce.stageRunProcess, hok]
    dsimp only
    rw [if_neg (by exact not_lt.mpr hge)]

/-- Witness for C2 with the default minimum ratio 0.95 on 20 chunks:
19/20 = 0.95 exactly passes (manifest written last); 18/20 = 0.90 fails
(raises, no manifest write). -/
theorem c2_witness :
    (stageRunOnce .absent "doc" "key" "pfx" (List.replicate 20 'a') 1 0
        (fun i => decide (i ≠ 0)) EMBED_SUCCESS_MIN).raised =
      false ∧
    (stageRunOnce .absent "doc" "key" "pfx" (List.replicate 20 'a') 1 0
        (fun i => decide (2 ≤ i)) EMBED_SUCCESS_MIN).raised =
      true ∧
    (∀ c e : Int, StageEvent.putManifest c e ∉
      (stageRunOnce .absent "doc" "key" "pfx" (List.replicate 20 'a') 1 0
        (fun i => decide (2 ≤ i)) EMBED_SUCCESS_MIN).events) := by
  have hok1 : chunk_text (List.replicate 20 'a') 1 0 =
      .ok (List.replicate 20 ['a']) := by
    simp [chunk_text, chunkLoop, seg, pyStripNonEmpty, pyIsSpace,
      List.replicate]
  have h1 := (c2_success_ratio_gate "doc" "key" "pfx"
    (List.replicate 20 'a') 1 0 (fun i => decide (i ≠ 0))
    EMBED_SUCCESS_MIN (List.replicate 20 ['a']) hok1).2
  have h2 := (c2_success_ratio_gate "doc" "key" "pfx"
    (List.replicate 20 'a') 1 0 (fun i => decide (2 ≤ i))
    EMBED_SUCCESS_MIN (List.replicate 20 ['a']) hok1).1
  have hp1 : (embedChunks (fun i => decide (i ≠ 0))
      (List.range (List.replicate 20 ['a']).length)).2 = 19 := by decide
  have hp2 : (embedChunks (fun i => decide (2 ≤ i))
      (List.range (List.replicate 20 ['a']).length)).2 = 18 := by decide
  refine ⟨?_, ?_, ?_⟩
  · rw [(h1 (by rw [hp1]; norm_num [EMBED_SUCCESS_MIN]))]
  · rw [(h2 (by rw [hp2]; norm_num [EMBED_SUCCESS_MIN])).1]
  · exact (h2 (by rw [hp2]; norm_num [EMBED_SUCCESS_MIN])).2

/-! ## Helper lemmas and claim theorems: strict schema validator -/

theorem jlookup_restrict (allowed : List String)
    (fields : List (String × JVal)) (k : String)
    (hk : allowed.contains k = true) :
    jlookup (fields.filter (fun kv => allowed.contains kv.1)) k =
      jlookup fields k := by
  induction fields with
  | nil => rfl
  | cons kv rest ih =>
      obtain ⟨k', v⟩ := kv
      by_cases hkk : k' = k
      · subst hkk
        simp only [List.filter_cons, hk, if_pos]
        rw [jlookup, jlookup]
        simp
      · by_cases hc : allowed.contains k' = true
        · simp only [List.filter_cons, hc, if_pos]
          rw [jlookup, jlookup]
          simp only [hkk, if_neg, if_false]
          exact ih
        · simp only [List.filter_cons, Bool.not_eq_true] at hc ⊢
          rw [hc]
          simp only [Bool.false_eq_true, if_false]
          rw [jlookup]
          simp only [hkk, if_false]
          exact ih

theorem requiredCheck_restrict (required allowed : List String)
    (fields : List (String × JVal))
    (hsub : ∀ r ∈ required, allowed.contains r = true) :
    requiredCheck required
      (fields.filter (fun kv => allowed.contains kv.1)) =
      requiredCheck required fields := by
  induction required with
  | nil => rfl
  | cons r rest ih =>
      rw [requiredCheck, requiredCheck,
        jlookup_restrict allowed fields r (hsub r (by simp))]
      cases jlookup fields r with
      | none => rfl
      | some v =>
          simp only
          split
          · rfl
          · exact ih (fun x hx => hsub x (by simp [hx]))

theorem jlookup_append_some (fields l : List (String × JVal)) (k : String)
    (v : JVal) (h : jlookup fields k = some v) :
    jlookup (fields ++ l) k = some v := by
  induction fields with
  | nil => simp [jlookup] at h
  | cons kv rest ih =>
      obtain ⟨k', w⟩ := kv
      rw [jlookup] at h
      rw [List.cons_append, jlookup]
      by_cases hkk : k' = k
      · simpa [hkk] using h
      · simp only [hkk, if_false] at h ⊢
        exact ih h

theorem requiredCheck_append_ok (required : List String)
    (fields l : List (String × JVal))
    (h : requiredCheck required fields = .ok ()) :
    requiredCheck required (fields ++ l) = .ok () := by
  induction required with
  | nil => rfl
  | cons r rest ih =>
      rw [requiredCheck] at h ⊢
      cases hl : jlookup fields r with
      | none => rw [hl] at h; cases h
      | some v =>
          rw [hl] at h
          rw [jlookup_append_some fields l r v hl]
          simp only at h ⊢
          split at h
          · cases h
          · rw [if_neg (by assumption)]
            exact ih h

theorem eseq_ok_iff (x y : Except SchemaValidationError Unit) :
    eseq x y = .ok () ↔ x = .ok () ∧ y = .ok () := by
  cases x with
  | error e => simp [eseq]
  | ok u => cases u; simp [eseq]

theorem eseq_ok_left (y : Except SchemaValidationError Unit) :
    eseq (.ok ()) y = y := rfl

theorem validateTopFields_append (s : TopSchema)
    (l1 l2 : List (String × JVal))
    (h1 : validateTopFields s l1 = .ok ()) :
    validateTopFields s (l1 ++ l2) = validateTopFields s l2 := by
  induction l1 with
  | nil => rfl
  | cons kv rest ih =>
      obtain ⟨k, v⟩ := kv
      rw [validateTopFields] at h1
      rw [List.cons_append, validateTopFields]
      cases hf : validateTopFields.flookup s.properties k with
      | none =>
          rw [hf] at h1
          exact ih h1
      | some fs =>
          rw [hf] at h1
          dsimp only at h1 ⊢
          rcases (eseq_ok_iff _ _).mp h1 with ⟨hb, h2⟩
          rcases (eseq_ok_iff _ _).mp h2 with ⟨hm, h3⟩
          rw [hb, eseq_ok_left, hm, eseq_ok_left]
          exact ih h3

theorem flookup_isSome_of_contains (props : List (String × FieldSchema))
    (k : String) (hk : (props.map (·.1)).contains k = true) :
    ∃ fs, validateTopFields.flookup props k = some fs := by
  induction props with
  | nil => simp at hk
  | cons kv rest ih =>
      obtain ⟨k', fs⟩ := kv
      rw [validateTopFields.flookup]
      by_cases hkk : k' = k
      · exact ⟨fs, by simp [hkk]⟩
      · simp only [hkk, if_false]
        apply ih
        simp only [List.map_cons, List.contains_cons] at hk
        rcases Bool.or_eq_true_iff.mp hk with h1 | h2
        · have hkeq : k = k' := by simpa using h1
          exact absurd hkeq.symm hkk
        · exact h2

theorem nullBranch_ok_of_not_required (required : List String) (k : String)
    (fc : FieldConstraints) (hnr : required.contains k = false) :
    nullBranch required k fc = .ok () := by
  have hnm : k ∉ required := by simpa using hnr
  rw [nullBranch]
  cases fc.type_ with
  | none => simp [hnr, hnm]
  | some st =>
      cases st with
      | single t => by_cases ht : t = "null" <;> simp [ht, hnr, hnm]
      | multi ts =>
          by_cases hts : ts.contains "null" = true <;>
            simp [hts, hnr, hnm]

/-- C4: for every payload whose declared fields validate (the payload
restricted to the schema's declared properties passes the strict
validator) but which contains at least one undeclared field name, the
validator rejects with the distinct stable code `VAL_SCHEMA_EXTRA`
naming the first undeclared key — distinguishable from the type,
required, empty, null, length, format, enum and range codes. -/
theorem c4_unknown_field_hard_failure (fields : List (String × JVal))
    (hvalid : validate_against_schema SOW_SCHEMA
      (.obj (fields.filter
        (fun kv => (SOW_SCHEMA.properties.map (·.1)).contains kv.1))) =
      .ok ())
    (hextra : ∃ kv ∈ fields,
      (SOW_SCHEMA.properties.map (·.1)).contains kv.1 = false) :
    validate_against_schema SOW_SCHEMA (.obj fields) =
      .error ⟨"VAL_SCHEMA_EXTRA",
        ((fields.filter (fun kv =>
          !(SOW_SCHEMA.properties.map (·.1)).contains kv.1)).head?.map
            (·.1))⟩ ∧
    ("VAL_SCHEMA_EXTRA" ∉ ["VAL_SCHEMA_TYPE", "VAL_SCHEMA_REQUIRED",
      "VAL_SCHEMA_EMPTY", "VAL_SCHEMA_NULL", "VAL_SCHEMA_LENGTH",
      "VAL_SCHEMA_FORMAT", "VAL_SCHEMA_ENUM", "VAL_SCHEMA_RANGE"]) := by
  refine ⟨?_, by decide⟩
  have hreq : requiredCheck SOW_SCHEMA.required fields = .ok () := by
    rw [validate_against_schema] at hvalid
    rw [← requiredCheck_restrict SOW_SCHEMA.required
      (SOW_SCHEMA.properties.map (·.1)) fields (by decide)]
    exact ((eseq_ok_iff _ _).mp hvalid).1
  have hne : fields.filter (fun kv =>
      !(SOW_SCHEMA.properties.map (·.1)).contains kv.1) ≠ [] := by
    rcases hextra with ⟨kv, hmem, hf⟩
    intro hcon
    have hkv : kv ∈ fields.filter (fun kv =>
        !(SOW_SCHEMA.properties.map (·.1)).contains kv.1) :=
      List.mem_filter.mpr ⟨hmem, by rw [hf]; rfl⟩
    rw [hcon] at hkv
    simp at hkv
  have hx : extraCheck SOW_SCHEMA.noAdditional
      (SOW_SCHEMA.properties.map (·.1)) fields =
      .error ⟨"VAL_SCHEMA_EXTRA",
        ((fields.filter (fun kv =>
          !(SOW_SCHEMA.properties.map (·.1)).contains kv.1)).head?.map
            (·.1))⟩ := by
    rw [extraCheck,
      if_pos (show SOW_SCHEMA.noAdditional = true from rfl)]
    cases hfil : fields.filter (fun kv =>
        !(SOW_SCHEMA.properties.map (·.1)).contains kv.1) with
    | nil => exact absurd hfil hne
    | cons kv rest =>
        obtain ⟨k, v⟩ := kv
        rfl
  rw [validate_against_schema, hreq, eseq_ok_left, hx]
  rfl

/-- Witness for C4: a payload with a valid `client_name` and one
hallucinated extra field is rejected with `VAL_SCHEMA_EXTRA`. -/
theorem c4_witness :
    validate_against_schema SOW_SCHEMA
      (.obj [("client_name", .str "Acme"), ("hallucinated", .str "x")]) =
      .error ⟨"VAL_SCHEMA_EXTRA", some "hallucinated"⟩ := by
  have h := (c4_unknown_field_hard_failure
    [("client_name", .str "Acme"), ("hallucinated", .str "x")]
    (by decide) (by decide)).1
  rw [h]
  decide

/-- C10: appending `(k, null)` for any declared, non-required field `k`
not already present keeps a valid payload valid — null-ness of optional
fields is never checked against the declared type.  In particular
`signatures_present` is declared with the single type `"boolean"` (not
including `"null"`), yet null is accepted. -/
theorem c10_optional_null_bypasses_type (k : String)
    (fields : List (String × JVal))
    (hk : (SOW_SCHEMA.properties.map (·.1)).contains k = true)
    (hnr : SOW_SCHEMA.required.contains k = false)
    (hvalid : validate_against_schema SOW_SCHEMA (.obj fields) = .ok ()) :
    validate_against_schema SOW_SCHEMA
      (.obj (fields ++ [(k, .null)])) = .ok () ∧
    validateTopFields.flookup SOW_SCHEMA.properties "signatures_present" =
      some ⟨{ type_ := some (.single "boolean") }, none⟩ := by
  refine ⟨?_, by decide⟩
  rw [validate_against_schema] at hvalid ⊢
  rcases (eseq_ok_iff _ _).mp hvalid with ⟨hr, h2⟩
  rcases (eseq_ok_iff _ _).mp h2 with ⟨hx, h3⟩
  rw [requiredCheck_append_ok SOW_SCHEMA.required fields _ hr,
    eseq_ok_left]
  have hx2 : extraCheck SOW_SCHEMA.noAdditional
      (SOW_SCHEMA.properties.map (·.1))
      (fields ++ [(k, .null)]) = .ok () := by
    rw [extraCheck,
      if_pos (show SOW_SCHEMA.noAdditional = true from rfl)] at hx ⊢
    rw [List.filter_append]
    cases hfil : fields.filter (fun kv =>
        !(SOW_SCHEMA.properties.map (·.1)).contains kv.1) with
    | cons kv rest =>
        rw [hfil] at hx
        simp at hx
    | nil =>
        have hkm : k ∈ SOW_SCHEMA.properties.map (·.1) := by
          simpa using hk
        simp [List.filter_cons, hkm]
  rw [hx2, eseq_ok_left]
  rw [validateTopFields_append SOW_SCHEMA fields [(k, .null)] h3]
  rcases flookup_isSome_of_contains SOW_SCHEMA.properties k hk
    with ⟨fs, hfs⟩
  rw [validateTopFields, hfs]
  dsimp only
  have hb : validateFieldBase SOW_SCHEMA.required k fs.c .null =
      .ok () := by
    rw [validateFieldBase,
      if_pos (show JVal.isNull JVal.null = true from rfl)]
    exact nullBranch_ok_of_not_required _ k fs.c hnr
  rw [hb, eseq_ok_left]
  rfl

/-- Witness for C10: `{"client_name": "Acme"}` is valid, and adding
`"signatures_present": null` (declared type `"boolean"`) stays valid. -/
theorem c10_witness :
    validate_against_schema SOW_SCHEMA
      (.obj [("client_name", .str "Acme"),
             ("signatures_present", .null)]) = .ok () :=
  (c10_optional_null_bypasses_type "signatures_present"
    [("client_name", .str "Acme")] (by decide) (by decide) (by decide)).1

/-! ## Helper lemmas and claim theorems: business rule engine -/

theorem runRules_ok_char
    (rules : List (PyDate → SowData → Except PyErr (Option Violation)))
    (today : PyDate) (d : SowData) (errs warns : List Violation)
    (h : runRules rules today d = .ok (errs, warns)) :
    (∀ r ∈ rules, ∃ v, r today d = .ok v) ∧
    errs = (rules.filterMap (fun r =>
        match r today d with
        | .ok (some v) => some v
        | _ => none)).filter (fun v => decide (v.severity = .error)) ∧
    warns = (rules.filterMap (fun r =>
        match r today d with
        | .ok (some v) => some v
        | _ => none)).filter (fun v => !decide (v.severity = .error)) := by
  induction rules generalizing errs warns with
  | nil =>
      rw [runRules] at h
      cases h
      exact ⟨by simp, rfl, rfl⟩
  | cons r rest ih =>
      rw [runRules] at h
      cases hr : r today d with
      | error e => rw [hr] at h; cases h
      | ok v =>
          rw [hr] at h
          cases hrest : runRules rest today d with
          | error e => rw [hrest] at h; cases h
          | ok p =>
              obtain ⟨es, ws⟩ := p
              rw [hrest] at h
              rcases ih es ws hrest with ⟨hall, hes, hws⟩
              cases v with
              | none =>
                  simp only at h
                  cases h
                  refine ⟨?_, ?_, ?_⟩
                  · intro r' hr'
                    rcases List.mem_cons.mp hr' with rfl | hmem
                    · exact ⟨none, hr⟩
                    · exact hall r' hmem
                  · simpa [List.filterMap_cons, hr] using hes
                  · simpa [List.filterMap_cons, hr] using hws
              | some viol =>
                  simp only at h
                  by_cases hsev : viol.severity = .error
                  · rw [if_pos (by simp [hsev])] at h
                    cases h
                    refine ⟨?_, ?_, ?_⟩
                    · intro r' hr'
                      rcases List.mem_cons.mp hr' with rfl | hmem
                      · exact ⟨some viol, hr⟩
                      · exact hall r' hmem
                    · simp [List.filterMap_cons, hr, List.filter_cons,
                        hsev, hes]
                    · simp [List.filterMap_cons, hr, List.filter_cons,
                        hsev, hws]
                  · rw [if_neg (by simp [hsev])] at h
                    cases h
                    refine ⟨?_, ?_, ?_⟩
                    · intro r' hr'
                      rcases List.mem_cons.mp hr' with rfl | hmem
                      · exact ⟨some viol, hr⟩
                      · exact hall r' hmem
                    · simp [List.filterMap_cons, hr, List.filter_cons,
                        hsev, hes]
                    · simp [List.filterMap_cons, hr, List.filter_cons,
                        hsev, hws]

/-- C5 counterexample: on the input with `day_rates` explicitly null
(which the strict schema validator accepts), the engine raises a
`TypeError` inside `DayRateInvalidRule` (`enumerate(None)`): it aborts
mid-table, evaluates no further rule, and reports no pass/fail partition
at all — refuting the claim for this input. -/
theorem c5_counterexample_day_rates_null :
    validate_structured_data ⟨2025, 6, 1⟩
      ⟨.val "Globex", .val "2025-01-01", .val "2025-12-31", .val 100000,
        .null⟩ = .error .typeError := by decide

/-- C5 (amended): for every input on which no rule raises — equivalently
whenever `validate_structured_data` returns a result — every rule of the
fixed table was evaluated, the reported errors and warnings are exactly
the violations of the full table partitioned by severity (in table
order), and the validation passes exactly when the error list is
empty. -/
theorem c5_amended_full_table_partition (today : PyDate) (d : SowData)
    (p : Bool) (errs warns : List Violation)
    (h : validate_structured_data today d = .ok (p, errs, warns)) :
    (∀ r ∈ VALIDATION_RULES, ∃ v, r today d = .ok v) ∧
    errs = (VALIDATION_RULES.filterMap (fun r =>
        match r today d with
        | .ok (some v) => some v
        | _ => none)).filter (fun v => decide (v.severity = .error)) ∧
    warns = (VALIDATION_RULES.filterMap (fun r =>
        match r today d with
        | .ok (some v) => some v
        | _ => none)).filter (fun v => !decide (v.severity = .error)) ∧
    (p = true ↔ errs = []) := by
  rw [validate_structured_data] at h
  cases hrun : runRules VALIDATION_RULES today d with
  | error e => rw [hrun] at h; cases h
  | ok pr =>
      obtain ⟨es, ws⟩ := pr
      rw [hrun] at h
      simp only [Except.ok.injEq, Prod.mk.injEq] at h
      obtain ⟨hp, he, hw⟩ := h
      subst he
      subst hw
      subst hp
      rcases runRules_ok_char VALIDATION_RULES today d es ws hrun with
        ⟨hall, hes, hws⟩
      exact ⟨hall, hes, hws, by simp⟩

/-- Witness for C5 (amended) at a fully valid concrete payload: the run
returns, every rule evaluates, and the partition is empty/empty with
pass = true. -/
theorem c5_witness :
    (∀ r ∈ VALIDATION_RULES, ∃ v,
      r ⟨2025, 6, 1⟩
        ⟨.val "Acme", .val "2025-01-01", .val "2025-12-31", .val 100000,
          .val [⟨.val "Dev", .val 500, .val "GBP"⟩]⟩ = .ok v) ∧
    (true = true ↔ ([] : List Violation) = []) :=
  ⟨((c5_amended_full_table_partition ⟨2025, 6, 1⟩
      ⟨.val "Acme", .val "2025-01-01", .val "2025-12-31", .val 100000,
        .val [⟨.val "Dev", .val 500, .val "GBP"⟩]⟩
      true [] [] (by decide))).1,
   (((c5_amended_full_table_partition ⟨2025, 6, 1⟩
      ⟨.val "Acme", .val "2025-01-01", .val "2025-12-31", .val 100000,
        .val [⟨.val "Dev", .val 500, .val "GBP"⟩]⟩
      true [] [] (by decide))).2.2.2)⟩

/-- C6: the rule engine is deterministic — two evaluations of the table
on identical input (and the same wall-clock date, which only the
`DatePastRule` warning consults) yield identical results; and on the
concrete invalid input (`client_name = ""`, `end_date < start_date`,
`rate = 0`) the error list is exactly
`[VAL_CLIENT_MISSING, VAL_DATE_RANGE, VAL_RATE_INVALID]` — a sorted set
of codes containing `VAL_DATE_RANGE` and the invalid-rate code — on both
runs. -/
theorem c6_deterministic_error_codes :
    (∀ (today : PyDate) (d : SowData),
      validate_structured_data today d = validate_structured_data today d)
    ∧
    validate_structured_data ⟨2025, 6, 1⟩
      ⟨.val "", .val "2024-05-10", .val "2024-01-01", .absent,
        .val [⟨.val "Dev", .val 0, .val "GBP"⟩]⟩ =
      .ok (false,
        [⟨"VAL_CLIENT_MISSING", "client_name", .error⟩,
         ⟨"VAL_DATE_RANGE", "start_date,end_date", .error⟩,
         ⟨"VAL_RATE_INVALID", "day_rates[0].rate", .error⟩],
        [⟨"VAL_DATE_PAST", "end_date", .warning⟩,
         ⟨"VAL_VALUE_MISSING", "contract_value", .warning⟩]) ∧
    ["VAL_CLIENT_MISSING", "VAL_DATE_RANGE",
     "VAL_RATE_INVALID"].Sorted (· ≤ ·) ∧
    "VAL_DATE_RANGE" ∈ ["VAL_CLIENT_MISSING", "VAL_DATE_RANGE",
      "VAL_RATE_INVALID"] ∧
    "VAL_RATE_INVALID" ∈ ["VAL_CLIENT_MISSING", "VAL_DATE_RANGE",
      "VAL_RATE_INVALID"] := by
  refine ⟨fun _ _ => rfl, by decide, ?_, by decide, by decide⟩
  simp [List.sorted_cons]
  refine ⟨⟨?_, ?_⟩, ?_⟩ <;> decide

/-- C8: the claim (from the spec) that rules tolerate missing/null
inputs by skipping rather than throwing is violated by the code: with
`day_rates` explicitly null — a value the strict schema validator
accepts for this optional field — `DayRateInvalidRule` evaluates
`enumerate(data.get("day_rates", []))` on `None` and raises `TypeError`;
a null `rate` inside an entry likewise raises on `None <= 0`.  A missing
`day_rates` key (absent, defaulting to `[]`) is skipped as the claim
states, and `DateRangeRule` skips null dates without raising. -/
theorem c8_null_day_rates_raises :
    dayRateInvalidRule ⟨2025, 6, 1⟩
      ⟨.val "Acme", .val "2025-01-01", .val "2025-12-31", .val 100000,
        .null⟩ = .error .typeError ∧
    dayRateInvalidRule ⟨2025, 6, 1⟩
      ⟨.val "Acme", .val "2025-01-01", .val "2025-12-31", .val 100000,
        .val [⟨.val "Dev", .null, .val "GBP"⟩]⟩ = .error .typeError ∧
    validate_structured_data ⟨2025, 6, 1⟩
      ⟨.val "Acme", .val "2025-01-01", .val "2025-12-31", .val 100000,
        .null⟩ = .error .typeError ∧
    dayRateInvalidRule ⟨2025, 6, 1⟩
      ⟨.val "Acme", .val "2025-01-01", .val "2025-12-31", .val 100000,
        .absent⟩ = .ok none ∧
    dateRangeRule ⟨2025, 6, 1⟩
      ⟨.val "Acme", .null, .null, .val 100000, .absent⟩ = .ok none ∧
    validate_against_schema SOW_SCHEMA
      (.obj [("client_name", .str "Acme"), ("day_rates", .null)]) =
      .ok () := by
  refine ⟨by decide, by decide, by decide, by decide, by decide, by decide⟩

end SowPo
